import Mathlib

/-!
Verification of the MCP shell-server command dispatch pipeline.

The source (`src/src/config.ts`, server part) defines:
  * `splitCommand` — a tokenizer driven by the JavaScript regex
    `/[^\s"']+|"([^"]*)"|'([^']*)'/g`, with the per-token substitution
    `arg.replace(/\\n/g, '\n')` applied to `match[1] || match[2] || match[0]`;
  * `BLACKLISTED_COMMANDS` — a Set built from an 18-element array
    (the bare name `mkfs` appears twice);
  * `validateCommand` — `!BLACKLISTED_COMMANDS.has(baseCommand)`;
  * the `CallToolRequestSchema` handler — throws `Unknown tool: <name>` for any
    tool other than `run_command`; otherwise tokenizes, checks existence
    (`commandExists`), checks the denylist, runs `execa`, and converts every
    caught error into an ordinary single-text-item response.

The host-dependent collaborators (`commandExists`, `execa`) are modelled as
oracle parameters at the interface the spec gives them (a boolean existence
query; an executor returning captured stdout/stderr or a stringified error).
JavaScript's `undefined` (the first token of an empty token sequence) is
modelled with `Option String`: `none` renders as the string "undefined" in
template literals, is absent from the denylist Set, and is passed to the
oracles as `none`.
-/

/-- Character class of the JavaScript regex metacharacter `\s`
(ECMAScript WhiteSpace and LineTerminator code points). -/
def jsWhitespace (c : Char) : Bool :=
  c == ' ' || c == '\t' || c == '\n' || c == '\x0b' || c == '\x0c' || c == '\r' ||
  c.toNat == 0xA0 || c.toNat == 0x1680 ||
  (decide (0x2000 ≤ c.toNat) && decide (c.toNat ≤ 0x200A)) ||
  c.toNat == 0x2028 || c.toNat == 0x2029 || c.toNat == 0x202F ||
  c.toNat == 0x205F || c.toNat == 0x3000 || c.toNat == 0xFEFF

/-- Character class `[^\s"']` of the first regex alternative. -/
def isPlainChar (c : Char) : Bool :=
  !(jsWhitespace c) && !(c == '"') && !(c == '\'')

/-- The per-token substitution `arg.replace(/\\n/g, '\n')`: a left-to-right,
non-overlapping replacement of each literal backslash-n pair by a newline. -/
def replaceEscapedNewlines : List Char → List Char
  | [] => []
  | [c] => [c]
  | c :: c2 :: rest2 =>
    if c = '\\' ∧ c2 = 'n' then '\n' :: replaceEscapedNewlines rest2
    else c :: replaceEscapedNewlines (c2 :: rest2)

/-- Scan for the closing quote `q`: on success, the content before the first
occurrence of `q` and the remainder after it (the greedy `[^q]*` of the quoted
regex alternatives stops exactly at the first closing quote). -/
def splitAtChar (q : Char) : List Char → Option (List Char × List Char)
  | [] => none
  | c :: rest =>
    if c = q then some ([], rest)
    else
      match splitAtChar q rest with
      | some (content, rest2) => some (c :: content, rest2)
      | none => none

/-- The `while ((match = regex.exec(command)) !== null)` loop of
`splitCommand`.  At each position the regex engine tries, in order:
a maximal run of `[^\s"']`, a double-quoted substring, a single-quoted
substring; on failure it advances one character.  For a quoted match the
pushed argument is `match[1] || match[2] || match[0]` — i.e. the quoted
content, falling back to the whole match (quotes included) when the content
is the empty string, which is falsy in JavaScript.  The newline substitution
is applied to every pushed argument.  `fuel` bounds the number of loop
iterations; every iteration consumes at least one character, so
`input.length + 1` iterations always suffice. -/
def splitCommandLoop : Nat → List Char → List String
  | 0, _ => []
  | _ + 1, [] => []
  | fuel + 1, c :: rest =>
    if isPlainChar c then
      String.mk (replaceEscapedNewlines (List.takeWhile isPlainChar (c :: rest)))
        :: splitCommandLoop fuel (List.dropWhile isPlainChar (c :: rest))
    else if c = '"' then
      match splitAtChar '"' rest with
      | some (content, rest2) =>
        String.mk (replaceEscapedNewlines
            (if content = [] then '"' :: (content ++ ['"']) else content))
          :: splitCommandLoop fuel rest2
      | none => splitCommandLoop fuel rest
    else if c = '\'' then
      match splitAtChar '\'' rest with
      | some (content, rest2) =>
        String.mk (replaceEscapedNewlines
            (if content = [] then '\'' :: (content ++ ['\'']) else content))
          :: splitCommandLoop fuel rest2
      | none => splitCommandLoop fuel rest
    else
      splitCommandLoop fuel rest

/-- Function `splitCommand` from the source: tokenize a raw command string. -/
def splitCommand (command : String) : List String :=
  splitCommandLoop (command.data.length + 1) command.data

/-- Constant `BLACKLISTED_COMMANDS` from the source, in source order; the Set is built
from this array, so membership in the Set is membership in this list.  The
source lists `mkfs` twice ("Duplicate of above"). -/
def BLACKLISTED_COMMANDS : List String :=
  ["rm", "rmdir", "del",
   "format", "mkfs", "dd",
   "chmod", "chown",
   "sudo", "su",
   "exec", "eval",
   "write", "wall",
   "shutdown", "reboot", "init",
   "mkfs"]

/-- Function `validateCommand` from the source: `!BLACKLISTED_COMMANDS.has(baseCommand)`. -/
def validateCommand (baseCommand : String) : Bool :=
  !(BLACKLISTED_COMMANDS.contains baseCommand)

/-- The 17 distinct denylisted names (the duplicate removed). -/
def denylistedNames : List String :=
  ["rm", "rmdir", "del", "format", "mkfs", "dd", "chmod", "chown", "sudo", "su",
   "exec", "eval", "write", "wall", "shutdown", "reboot", "init"]

/-- Captured output of a successful `execa` run (the `CommandResult`
interface of the source). -/
structure CommandResult where
  stdout : String
  stderr : String
deriving DecidableEq, Repr

/-- One item of the response `content` array. -/
structure TextContent where
  type : String
  text : String
  mimeType : String
deriving DecidableEq, Repr

/-- The handler's response value. -/
structure ToolResponse where
  content : List TextContent
deriving DecidableEq, Repr

/-- The single-text-item response shape both handler branches build. -/
def textResponse (t : String) : ToolResponse :=
  { content := [{ type := "text", text := t, mimeType := "text/plain" }] }

/-- JavaScript string interpolation of a possibly-`undefined` value:
`undefined` renders as the string "undefined". -/
def jsStringOfOpt : Option String → String
  | none => "undefined"
  | some s => s

/-- Function `validateCommand` as the handler applies it to the (possibly `undefined`)
first token: `Set.has(undefined)` is `false`, so `undefined` validates. -/
def validateCommandOpt : Option String → Bool
  | none => true
  | some s => validateCommand s

/-- An incoming `CallToolRequest`: tool name and the `command` argument. -/
structure CallToolRequest where
  name : String
  command : String

/-- Observable outcome of one request: the response handed to the transport
(`Except.error` = an exception thrown past the handler, i.e. a protocol-level
error; `Except.ok` = an ordinary content response), plus an instrumentation
record of whether the denylist check was reached and whether `execa` was
invoked. -/
structure HandlerTrace where
  response : Except String ToolResponse
  policyEvaluated : Bool
  launched : Bool

/-- The `CallToolRequestSchema` handler from the source.

* `commandExists` is the existence-resolver oracle (spec 4.3:
  `exists(executableName) -> bool`), queried on the first token;
* `execa` is the process-executor oracle: `Except.ok` carries the captured
  stdout/stderr of a successful run, `Except.error` the stringified error
  thrown for a launch failure or abnormal exit.

A tool name other than `run_command` is rethrown to the transport
(`Except.error`).  Inside the `try` block the thrown `Error` objects
stringify as `"Error: " ++ message`, and the `catch` turns them into an
ordinary `textResponse`; the success branch returns
`stdout || stderr` (stderr when stdout is the empty string, which is falsy). -/
def callToolHandler (commandExists : Option String → Bool)
    (execa : Option String → List String → Except String CommandResult)
    (req : CallToolRequest) : HandlerTrace :=
  if req.name ≠ "run_command" then
    { response := Except.error ("Unknown tool: " ++ req.name),
      policyEvaluated := false, launched := false }
  else
    let shell_command := (splitCommand req.command).head?
    let args := (splitCommand req.command).tail
    if !(commandExists shell_command) then
      { response := Except.ok (textResponse
          ("Error: Command not found: " ++ jsStringOfOpt shell_command)),
        policyEvaluated := false, launched := false }
    else if !(validateCommandOpt shell_command) then
      { response := Except.ok (textResponse
          ("Error: Command not allowed: " ++ jsStringOfOpt shell_command)),
        policyEvaluated := true, launched := false }
    else
      match execa shell_command args with
      | Except.ok r =>
        { response := Except.ok (textResponse (if r.stdout = "" then r.stderr else r.stdout)),
          policyEvaluated := true, launched := true }
      | Except.error e =>
        { response := Except.ok (textResponse e),
          policyEvaluated := true, launched := true }

/-- Predicate: `pat` occurs as a contiguous substring of `s`. -/
def containsSubstring (s pat : String) : Prop :=
  ∃ pre post, s = pre ++ pat ++ post

/-- Test whether `l` contains the two-character sequence backslash-n. -/
def hasBackslashN : List Char → Bool
  | [] => false
  | [_] => false
  | c :: c2 :: rest => (c == '\\' && c2 == 'n') || hasBackslashN (c2 :: rest)

/- Helper lemmas (shared across the claim theorems below). -/

theorem containsSubstring_of_append (a b c t : String) :
    containsSubstring ((a ++ b ++ c) ++ t) b :=
  ⟨a, c ++ t, by rw [String.append_assoc (a ++ b) c t]⟩

theorem hasBackslashN_cons (x : Char) (ys : List Char) (hx : x ≠ '\\') :
    hasBackslashN (x :: ys) = hasBackslashN ys := by
  cases ys with
  | nil => rfl
  | cons y ys2 => simp [hasBackslashN, hx]

theorem replaceEscapedNewlines_head (c2 : Char) (rest : List Char) :
    (∃ zs, replaceEscapedNewlines (c2 :: rest) = c2 :: zs) ∨
    (∃ zs, replaceEscapedNewlines (c2 :: rest) = '\n' :: zs) := by
  cases rest with
  | nil => exact Or.inl ⟨[], rfl⟩
  | cons c3 rest3 =>
    by_cases h : c2 = '\\' ∧ c3 = 'n'
    · refine Or.inr ⟨replaceEscapedNewlines rest3, ?_⟩
      rw [replaceEscapedNewlines, if_pos h]
    · exact Or.inl ⟨replaceEscapedNewlines (c3 :: rest3),
        by rw [replaceEscapedNewlines, if_neg h]⟩

theorem hasBackslashN_replaceEscapedNewlines (l : List Char) :
    hasBackslashN (replaceEscapedNewlines l) = false := by
  induction l using replaceEscapedNewlines.induct with
  | case1 => rfl
  | case2 c => rfl
  | case3 c c2 rest2 h ih =>
    rw [replaceEscapedNewlines, if_pos h, hasBackslashN_cons _ _ (by decide)]
    exact ih
  | case4 c c2 rest2 h ih =>
    rw [replaceEscapedNewlines, if_neg h]
    rcases replaceEscapedNewlines_head c2 rest2 with ⟨zs, hz⟩ | ⟨zs, hz⟩
    · rw [hz] at ih ⊢
      have hb : (c == '\\' && c2 == 'n') = false := by
        by_cases hc : c = '\\'
        · have hn : c2 ≠ 'n' := fun hn => h ⟨hc, hn⟩
          rw [beq_eq_false_iff_ne.mpr hn, Bool.and_false]
        · rw [beq_eq_false_iff_ne.mpr hc, Bool.false_and]
      show ((c == '\\' && c2 == 'n') || hasBackslashN (c2 :: zs)) = false
      rw [hb, ih]
      rfl
    · rw [hz] at ih ⊢
      show ((c == '\\' && '\n' == 'n') || hasBackslashN ('\n' :: zs)) = false
      rw [ih, Bool.or_false, show (('\n' : Char) == 'n') = false from rfl, Bool.and_false]

theorem splitCommandLoop_no_backslashN (fuel : Nat) (l : List Char) (tok : String)
    (h : tok ∈ splitCommandLoop fuel l) : hasBackslashN tok.data = false := by
  induction fuel generalizing l with
  | zero => simp [splitCommandLoop] at h
  | succ n ih =>
    cases l with
    | nil => simp [splitCommandLoop] at h
    | cons c rest =>
      rw [splitCommandLoop] at h
      split at h
      · rcases List.mem_cons.mp h with h1 | h2
        · subst h1; exact hasBackslashN_replaceEscapedNewlines _
        · exact ih _ h2
      · split at h
        · split at h
          · rcases List.mem_cons.mp h with h1 | h2
            · subst h1; exact hasBackslashN_replaceEscapedNewlines _
            · exact ih _ h2
          · exact ih _ h
        · split at h
          · split at h
            · rcases List.mem_cons.mp h with h1 | h2
              · subst h1; exact hasBackslashN_replaceEscapedNewlines _
              · exact ih _ h2
            · exact ih _ h
          · exact ih _ h

theorem splitCommandLoop_whitespace (fuel : Nat) (l : List Char)
    (h : ∀ c ∈ l, jsWhitespace c = true) : splitCommandLoop fuel l = [] := by
  induction fuel generalizing l with
  | zero => rfl
  | succ n ih =>
    cases l with
    | nil => rfl
    | cons c rest =>
      have hc : jsWhitespace c = true := h c (List.mem_cons_self c rest)
      have h1 : isPlainChar c = false := by simp [isPlainChar, hc]
      have h2 : ¬ c = '"' := by rintro rfl; exact absurd hc (by decide)
      have h3 : ¬ c = '\'' := by rintro rfl; exact absurd hc (by decide)
      rw [splitCommandLoop, if_neg (by simp [h1]), if_neg h2, if_neg h3]
      exact ih rest (fun d hd => h d (List.mem_cons_of_mem c hd))

theorem runCommand_response_ok (ce : Option String → Bool)
    (ex : Option String → List String → Except String CommandResult) (command : String) :
    ∃ t, (callToolHandler ce ex ⟨"run_command", command⟩).response
      = Except.ok (textResponse t) := by
  cases h1 : ce ((splitCommand command).head?) with
  | false =>
    exact ⟨"Error: Command not found: " ++ jsStringOfOpt ((splitCommand command).head?),
      by simp [callToolHandler, h1]⟩
  | true =>
    cases h2 : validateCommandOpt ((splitCommand command).head?) with
    | false =>
      exact ⟨"Error: Command not allowed: " ++ jsStringOfOpt ((splitCommand command).head?),
        by simp [callToolHandler, h1, h2]⟩
    | true =>
      cases hex : ex ((splitCommand command).head?) ((splitCommand command).tail) with
      | ok r =>
        exact ⟨if r.stdout = "" then r.stderr else r.stdout,
          by simp [callToolHandler, h1, h2, hex]⟩
      | error e => exact ⟨e, by simp [callToolHandler, h1, h2, hex]⟩

/- Claim theorems. -/

/-- Claim C1: for every `run_command` invocation whose first token is a
denylisted name (given that the name resolves on the search path, which the
handler checks first), the response is an ordinary Failure whose text
contains "Command not allowed", and the child process is never launched. -/
theorem C1_denylisted_command_rejected (ce : Option String → Bool)
    (ex : Option String → List String → Except String CommandResult)
    (command name : String)
    (hhead : (splitCommand command).head? = some name)
    (hdeny : validateCommand name = false)
    (hexists : ce (some name) = true) :
    (callToolHandler ce ex ⟨"run_command", command⟩).response
      = Except.ok (textResponse ("Error: Command not allowed: " ++ name)) ∧
    containsSubstring ("Error: Command not allowed: " ++ name) "Command not allowed" ∧
    (callToolHandler ce ex ⟨"run_command", command⟩).launched = false := by
  refine ⟨?_, ?_, ?_⟩
  · simp [callToolHandler, hhead, hexists, validateCommandOpt, hdeny, jsStringOfOpt]
  · rw [show ("Error: Command not allowed: " : String)
        = "Error: " ++ "Command not allowed" ++ ": " from rfl]
    exact containsSubstring_of_append _ _ _ _
  · simp [callToolHandler, hhead, hexists, validateCommandOpt, hdeny]

/-- Witness for C1 at the concrete invocation `rm -rf /tmp/x`. -/
theorem C1_denylisted_command_rejected_witness :
    (callToolHandler (fun _ => true) (fun _ _ => Except.ok ⟨"", ""⟩)
        ⟨"run_command", "rm -rf /tmp/x"⟩).response
      = Except.ok (textResponse ("Error: Command not allowed: " ++ "rm")) ∧
    (callToolHandler (fun _ => true) (fun _ _ => Except.ok ⟨"", ""⟩)
        ⟨"run_command", "rm -rf /tmp/x"⟩).launched = false := by
  have h := C1_denylisted_command_rejected (fun _ => true) (fun _ _ => Except.ok ⟨"", ""⟩)
    "rm -rf /tmp/x" "rm" (by decide) (by decide) rfl
  exact ⟨h.1, h.2.2⟩

/-- Claim C2: for every `run_command` invocation whose first token does not
resolve on the search path, the response is an ordinary Failure whose text
contains "Command not found", and neither the denylist check nor the
executor is ever reached. -/
theorem C2_unresolved_command_not_found (ce : Option String → Bool)
    (ex : Option String → List String → Except String CommandResult)
    (command name : String)
    (hhead : (splitCommand command).head? = some name)
    (hmissing : ce (some name) = false) :
    (callToolHandler ce ex ⟨"run_command", command⟩).response
      = Except.ok (textResponse ("Error: Command not found: " ++ name)) ∧
    containsSubstring ("Error: Command not found: " ++ name) "Command not found" ∧
    (callToolHandler ce ex ⟨"run_command", command⟩).policyEvaluated = false ∧
    (callToolHandler ce ex ⟨"run_command", command⟩).launched = false := by
  refine ⟨?_, ?_, ?_, ?_⟩
  · simp [callToolHandler, hhead, hmissing, jsStringOfOpt]
  · rw [show ("Error: Command not found: " : String)
        = "Error: " ++ "Command not found" ++ ": " from rfl]
    exact containsSubstring_of_append _ _ _ _
  · simp [callToolHandler, hhead, hmissing]
  · simp [callToolHandler, hhead, hmissing]

/-- Witness for C2 at a concrete nonexistent command name. -/
theorem C2_unresolved_command_not_found_witness :
    (callToolHandler (fun _ => false) (fun _ _ => Except.ok ⟨"", ""⟩)
        ⟨"run_command", "qwzxnosuchbinary --flag"⟩).response
      = Except.ok (textResponse ("Error: Command not found: " ++ "qwzxnosuchbinary")) ∧
    (callToolHandler (fun _ => false) (fun _ _ => Except.ok ⟨"", ""⟩)
        ⟨"run_command", "qwzxnosuchbinary --flag"⟩).policyEvaluated = false := by
  have h := C2_unresolved_command_not_found (fun _ => false) (fun _ _ => Except.ok ⟨"", ""⟩)
    "qwzxnosuchbinary --flag" "qwzxnosuchbinary" (by decide) rfl
  exact ⟨h.1, h.2.2.1⟩

/-- Claim C3: an empty or whitespace-only command string tokenizes to the
empty token sequence, and (the resolver answering `false` for the resulting
undefined executable) the handler returns an ordinary Failure response in the
"Command not found" shape — an `Except.ok` value, never an exception past the
handler boundary. -/
theorem C3_whitespace_command_fails_normally (ce : Option String → Bool)
    (ex : Option String → List String → Except String CommandResult)
    (command : String)
    (hws : ∀ c ∈ command.data, jsWhitespace c = true)
    (hnone : ce none = false) :
    splitCommand command = [] ∧
    (callToolHandler ce ex ⟨"run_command", command⟩).response
      = Except.ok (textResponse "Error: Command not found: undefined") ∧
    containsSubstring "Error: Command not found: undefined" "Command not found" := by
  have h1 : splitCommand command = [] :=
    splitCommandLoop_whitespace (command.data.length + 1) command.data hws
  refine ⟨h1, ?_, ⟨"Error: ", ": undefined", rfl⟩⟩
  simp [callToolHandler, h1, hnone, jsStringOfOpt]

/-- Witness for C3 at the concrete input `" \t "`. -/
theorem C3_whitespace_command_fails_normally_witness :
    splitCommand " \t " = [] ∧
    (callToolHandler (fun _ => false)
        (fun _ _ => Except.ok ⟨"", ""⟩) ⟨"run_command", " \t "⟩).response
      = Except.ok (textResponse "Error: Command not found: undefined") := by
  have h := C3_whitespace_command_fails_normally (fun _ => false)
    (fun _ _ => Except.ok ⟨"", ""⟩) " \t " (by decide) rfl
  exact ⟨h.1, h.2.1⟩

/-- Claim C4: every `run_command` invocation — success or failure — yields a
response that is a list of exactly one `{ type := "text", text, mimeType :=
"text/plain" }` item; when execution succeeds, the text is the captured
standard output, falling back to the captured standard error when standard
output is empty. -/
theorem C4_response_always_single_text_item (ce : Option String → Bool)
    (ex : Option String → List String → Except String CommandResult)
    (command : String) :
    (∃ t, (callToolHandler ce ex ⟨"run_command", command⟩).response
       = Except.ok { content := [{ type := "text", text := t, mimeType := "text/plain" }] }) ∧
    (∀ r : CommandResult,
       ce ((splitCommand command).head?) = true →
       validateCommandOpt ((splitCommand command).head?) = true →
       ex ((splitCommand command).head?) ((splitCommand command).tail) = Except.ok r →
       (callToolHandler ce ex ⟨"run_command", command⟩).response
         = Except.ok (textResponse (if r.stdout = "" then r.stderr else r.stdout))) := by
  constructor
  · obtain ⟨t, ht⟩ := runCommand_response_ok ce ex command
    exact ⟨t, ht⟩
  · intro r h1 h2 hex
    simp [callToolHandler, h1, h2, hex]

/-- Witness for C4: a run capturing empty stdout falls back to stderr. -/
theorem C4_response_always_single_text_item_witness :
    (callToolHandler (fun _ => true) (fun _ _ => Except.ok ⟨"", "warning\n"⟩)
        ⟨"run_command", "ls"⟩).response
      = Except.ok (textResponse "warning\n") := by
  have h := (C4_response_always_single_text_item (fun _ => true)
      (fun _ _ => Except.ok ⟨"", "warning\n"⟩) "ls").2
    ⟨"", "warning\n"⟩ rfl (by decide) rfl
  simpa using h

/-- Claim C5: a tool-call request whose operation name is not `run_command`
is answered with a protocol-level error (an exception surfaced to the
transport), and this is the only class of failure that surfaces as a
protocol-level error: every `run_command` request gets an ordinary content
response. -/
theorem C5_unknown_tool_is_protocol_error (ce : Option String → Bool)
    (ex : Option String → List String → Except String CommandResult)
    (name command : String) :
    (name ≠ "run_command" →
       (callToolHandler ce ex ⟨name, command⟩).response
         = Except.error ("Unknown tool: " ++ name)) ∧
    (name = "run_command" →
       ∃ resp, (callToolHandler ce ex ⟨name, command⟩).response = Except.ok resp) := by
  constructor
  · intro h
    simp [callToolHandler, h]
  · rintro rfl
    obtain ⟨t, ht⟩ := runCommand_response_ok ce ex command
    exact ⟨textResponse t, ht⟩

/-- Witness for C5 at the concrete unsupported operation name `list_files`. -/
theorem C5_unknown_tool_is_protocol_error_witness :
    (callToolHandler (fun _ => true) (fun _ _ => Except.ok ⟨"", ""⟩)
        ⟨"list_files", "echo hi"⟩).response
      = Except.error ("Unknown tool: " ++ "list_files") :=
  (C5_unknown_tool_is_protocol_error (fun _ => true) (fun _ _ => Except.ok ⟨"", ""⟩)
    "list_files" "echo hi").1 (by decide)

/-- Claim C6: invoking `run_command` with `echo hi` (the executor capturing
`hi` plus its natural trailing newline on stdout) returns a response whose
single content item has text `"hi\n"` and mimeType `text/plain`. -/
theorem C6_echo_hi_roundtrip (ce : Option String → Bool)
    (ex : Option String → List String → Except String CommandResult)
    (errtext : String)
    (hexists : ce (some "echo") = true)
    (hrun : ex (some "echo") ["hi"] = Except.ok ⟨"hi\n", errtext⟩) :
    (callToolHandler ce ex ⟨"run_command", "echo hi"⟩).response
      = Except.ok { content := [{ type := "text", text := "hi\n", mimeType := "text/plain" }] } := by
  have hsplit : splitCommand "echo hi" = ["echo", "hi"] := by decide
  have hv : validateCommandOpt (some "echo") = true := by decide
  simp [callToolHandler, hsplit, hv, hexists, hrun, textResponse]

/-- Witness for C6 with concrete oracles. -/
theorem C6_echo_hi_roundtrip_witness :
    (callToolHandler (fun _ => true) (fun _ _ => Except.ok ⟨"hi\n", ""⟩)
        ⟨"run_command", "echo hi"⟩).response
      = Except.ok { content := [{ type := "text", text := "hi\n", mimeType := "text/plain" }] } :=
  C6_echo_hi_roundtrip (fun _ => true) (fun _ _ => Except.ok ⟨"hi\n", ""⟩) "" rfl rfl

/-- Claim C7: no token produced by the tokenizer retains a literal
backslash-n pair (each is replaced by an actual newline), and in particular
`echo "line1\nline2"` tokenizes with an actual newline inside the second
token. -/
theorem C7_tokens_have_no_literal_backslash_n (s tok : String)
    (h : tok ∈ splitCommand s) :
    hasBackslashN tok.data = false ∧
    splitCommand "echo \"line1\\nline2\"" = ["echo", "line1\nline2"] :=
  ⟨splitCommandLoop_no_backslashN (s.data.length + 1) s.data tok h, by decide⟩

/-- Witness for C7 at a concrete unquoted token with an escaped newline. -/
theorem C7_tokens_have_no_literal_backslash_n_witness :
    hasBackslashN (String.data "a\nb") = false ∧
    splitCommand "echo \"line1\\nline2\"" = ["echo", "line1\nline2"] :=
  C7_tokens_have_no_literal_backslash_n "a\\nb" "a\nb" (by decide)

/-- Claim C8: `echo "hello world"` tokenizes to exactly
`["echo", "hello world"]` — quotes stripped, inner whitespace preserved. -/
theorem C8_quoted_token_roundtrip :
    splitCommand "echo \"hello world\"" = ["echo", "hello world"] := by decide

/-- Claim C9: `validateCommand` returns `false` exactly on the 17 distinct
denylisted names (the duplicate `mkfs` array entry adding nothing), and
`true` on every other string — including case variants and path-qualified
forms. -/
theorem C9_denylist_membership :
    (∀ s : String, validateCommand s = false ↔ s ∈ denylistedNames) ∧
    validateCommand "RM" = true ∧
    validateCommand "/bin/rm" = true := by
  refine ⟨fun s => ?_, by decide, by decide⟩
  constructor
  · intro h
    have hmem : s ∈ BLACKLISTED_COMMANDS := by simpa [validateCommand] using h
    simp only [BLACKLISTED_COMMANDS, List.mem_cons, List.not_mem_nil, or_false] at hmem
    simp only [denylistedNames, List.mem_cons, List.not_mem_nil, or_false]
    tauto
  · intro h
    have hmem : s ∈ BLACKLISTED_COMMANDS := by
      simp only [denylistedNames, List.mem_cons, List.not_mem_nil, or_false] at h
      simp only [BLACKLISTED_COMMANDS, List.mem_cons, List.not_mem_nil, or_false]
      tauto
    simpa [validateCommand] using hmem

/-- Claim C10: the tokenizer does not strip quotes from an empty quoted
substring: `echo ""` yields the two quote characters themselves as the
second token (the empty capture group is falsy, so the whole match is
pushed). -/
theorem C10_empty_quotes_kept :
    splitCommand "echo \"\"" = ["echo", "\"\""] := by decide
